import Mathlib

/-!
Shallow embedding of the STGCN inference and inverse-optimization core
(`app.py`, with the hyperparameter validator from `stgcnRunner.py`).

Conventions:
- Numeric arrays are total functions out of `Fin` index types; the float
  arithmetic of the source is modelled exactly, by `ℚ` where every source
  operation is rational (scaler, reshaping, pooling, validator) and by `ℝ`
  where a square root occurs (graph normalization, Adam).
- Fallible source operations (assert / raise) become `Option` / `Except`.
-/

/-! ### Scaler (`z_apply` / `z_inv`) -/

/-- Per-channel mean and standard-deviation vectors, one entry per channel,
as read from `scaler_params.json`. -/
structure ScalerStat (C : Nat) where
  mean : Fin C → ℚ
  std : Fin C → ℚ

/-- The z-score normalizer of `app.py` (`z_apply`): standard deviations equal
to zero are replaced by 1 (`std[std == 0] = 1.0`), then elementwise
`(x - mean) / std` per channel. -/
def z_apply {n C : Nat} (arr : Fin n → Fin C → ℚ) (stat : ScalerStat C) :
    Fin n → Fin C → ℚ :=
  fun i c => (arr i c - stat.mean c) / (if stat.std c = 0 then 1 else stat.std c)

/-- The denormalizer of `app.py` (`z_inv`): elementwise `x * std + mean`,
with no zero-std guard. -/
def z_inv {n C : Nat} (arr : Fin n → Fin C → ℚ) (stat : ScalerStat C) :
    Fin n → Fin C → ℚ :=
  fun i c => arr i c * stat.std c + stat.mean c

/-- Concrete stats used to instantiate the round-trip theorem. -/
def statW : ScalerStat 2 := ⟨![0, 1], ![1, 2]⟩

/-- Concrete input array used to instantiate the round-trip theorem. -/
def arrW : Fin 1 → Fin 2 → ℚ := fun _ => ![3, 4]

/-! ### Channel-to-node reshaping (`flat8_to_stgcn_x`) -/

/-- Core of `flat8_to_stgcn_x`: `[B,8,T] -> [B,3,T,3]`; node 0 takes
channels `0:3`, node 1 takes `3:6`, node 2 takes `6:8` plus one zero-padded
channel (`torch.stack([A, Bn, Cn], dim=-1)` after `torch.cat([Cn, pad])`). -/
def flat8core {B T : Nat} (x : Fin B → Fin 8 → Fin T → ℚ) :
    Fin B → Fin 3 → Fin T → Fin 3 → ℚ :=
  fun b c t v =>
    if v.val = 0 then x b ⟨c.val, by have := c.isLt; omega⟩ t
    else if v.val = 1 then x b ⟨c.val + 3, by have := c.isLt; omega⟩ t
    else if hc : c.val < 2 then x b ⟨c.val + 6, by omega⟩ t
    else 0

/-- `flat8_to_stgcn_x` of `app.py`, including its `assert C8 == 8` guard:
inputs whose channel dimension is not 8 are rejected. -/
def flat8_to_stgcn_x (B T C : Nat) (x : Fin B → Fin C → Fin T → ℚ) :
    Option (Fin B → Fin 3 → Fin T → Fin 3 → ℚ) :=
  if h : C = 8 then
    some (flat8core (fun b c8 t => x b (Fin.cast h.symm c8) t))
  else
    none

/-- Concrete good input for instantiating the reshaping theorem: entry value
records the channel index. -/
def xGood : Fin 1 → Fin 8 → Fin 1 → ℚ := fun _ c _ => (c.val : ℚ)

/-- Concrete bad-shape input (5 channels) for instantiating the reshaping
theorem. -/
def xBad : Fin 1 → Fin 5 → Fin 1 → ℚ := fun _ c _ => (c.val : ℚ)

/-! ### Model architecture shapes (`STGCN`, `TemporalConv`, `kpi_head`) -/

/-- Default value of the `IN_CHANNELS` environment configuration in `app.py`
(`int(os.getenv("IN_CHANNELS", "3"))`). -/
def IN_CHANNELS : Nat := 3

/-- Default value of `NUM_NODES` in `app.py`. -/
def NUM_NODES : Nat := 3

/-- Default value of `HID_CHANNELS` in `app.py`. -/
def HID_CHANNELS : Nat := 64

/-- Default value of `KERNEL_SIZE` in `app.py`. -/
def KERNEL_SIZE : Nat := 5

/-- Channel/kernel shape of a `TemporalConv` layer (`nn.Conv2d(in_channels,
out_channels, kernel_size=(k,1), padding=(k//2,0))`). -/
structure TemporalConvShape where
  inChannels : Nat
  outChannels : Nat
  kernelSize : Nat

/-- Shapes of the two temporal convolutions inside an `STGCNBlock`:
`temp1 = TemporalConv(in_channels, out_channels, k)` and
`temp2 = TemporalConv(out_channels, out_channels, k)`. -/
structure STGCNBlockShape where
  temp1 : TemporalConvShape
  temp2 : TemporalConvShape

/-- `STGCNBlock.__init__` of `app.py`. -/
def mkSTGCNBlock (inC outC k : Nat) : STGCNBlockShape :=
  ⟨⟨inC, outC, k⟩, ⟨outC, outC, k⟩⟩

/-- Layer shapes of the `STGCN` module: one block plus the final 1×1
convolution. -/
structure STGCNShape where
  block : STGCNBlockShape
  finalInChannels : Nat
  finalOutChannels : Nat

/-- `STGCN.__init__` of `app.py`: `self.block = STGCNBlock(in_channels, 64,
kernel_size)` and `self.final = nn.Conv2d(64, out_channels, (1,1))`; the
`num_nodes` argument is unused by the constructor. -/
def mkSTGCN (inC outC k _numNodes : Nat) : STGCNShape :=
  ⟨mkSTGCNBlock inC 64 k, 64, outC⟩

/-- The model instance built by `load_artifacts`:
`STGCN(IN_CHANNELS, HID_CHANNELS, KERNEL_SIZE, NUM_NODES)`. -/
def STGCN_MODEL_SHAPE : STGCNShape :=
  mkSTGCN IN_CHANNELS HID_CHANNELS KERNEL_SIZE NUM_NODES

/-! ### Pooling and the KPI head on the optimization path -/

/-- Mean over the last (node) axis with `keepdim=True`, as in
`STGCN_MODEL(x4, ADJ).mean(dim=-1, keepdim=True)` applied to a `[B,C,T,V]`
feature array. -/
def meanLastKeep {B C T V : Nat} (x : Fin B → Fin C → Fin T → Fin V → ℚ) :
    Fin B → Fin C → Fin T → Fin 1 → ℚ :=
  fun b c t _ => (∑ v, x b c t v) / (V : ℚ)

/-- Mean over the time axis with keepdim: the pooling that the spec sentence
for the optimization path describes. Stated only to compare with the source's
`meanLastKeep`; it is not what the code computes. -/
def meanTimeKeep {B C T V : Nat} (x : Fin B → Fin C → Fin T → Fin V → ℚ) :
    Fin B → Fin C → Fin 1 → Fin V → ℚ :=
  fun b c _ v => (∑ t, x b c t v) / (T : ℚ)

/-- The 1×1 convolution `kpi_head` (`nn.Conv2d(HID_CHANNELS, 3, 1)`): at every
position, a linear map over the 64 hidden channels plus a bias. -/
def kpiHeadApply {B T U : Nat} (w : Fin 3 → Fin 64 → ℚ) (bias : Fin 3 → ℚ)
    (feat : Fin B → Fin 64 → Fin T → Fin U → ℚ) :
    Fin B → Fin 3 → Fin T → Fin U → ℚ :=
  fun b k t u => (∑ c, w k c * feat b c t u) + bias k

/-- Optimization-path KPI prediction from the loop body of `app.py`
(`feat = STGCN_MODEL(x4, ADJ).mean(dim=-1, keepdim=True); pred =
KPI_HEAD(feat)`), as a function of the model's hidden output `[B,64,T,3]`. -/
def predOpt {B T : Nat} (w : Fin 3 → Fin 64 → ℚ) (bias : Fin 3 → ℚ)
    (h : Fin B → Fin 64 → Fin T → Fin 3 → ℚ) :
    Fin B → Fin 3 → Fin T → Fin 1 → ℚ :=
  kpiHeadApply w bias (meanLastKeep h)

/-- Concrete hidden-feature array (constant per timestep, different across
timesteps) used to separate node-mean pooling from time-mean pooling. -/
def hCex : Fin 1 → Fin 64 → Fin 2 → Fin 3 → ℚ :=
  fun _ _ t _ => if t.val = 0 then 0 else 1

/-- Concrete all-ones KPI-head weight. -/
def wCex : Fin 3 → Fin 64 → ℚ := fun _ _ => 1

/-- Concrete zero KPI-head bias. -/
def biasCex : Fin 3 → ℚ := fun _ => 0

/-! ### Graph propagation (`GraphConv`) -/

/-- Self-loop augmentation `adj + torch.eye(V)` from `GraphConv.forward`. -/
def adjWithSelfLoops {V : Nat} (adj : Fin V → Fin V → ℝ) : Fin V → Fin V → ℝ :=
  fun i j => adj i j + (if i = j then 1 else 0)

/-- Row-sum degree vector `torch.sum(adj, dim=1)` of the augmented
adjacency. -/
def degreeVec {V : Nat} (adj : Fin V → Fin V → ℝ) : Fin V → ℝ :=
  fun i => ∑ j, adjWithSelfLoops adj i j

/-- Inverse square root of a degree, `torch.pow(deg, -0.5)`, with the
source's guard replacing the infinity produced by a zero degree with 0. -/
noncomputable def degInvSqrt (d : ℝ) : ℝ :=
  if d = 0 then 0 else d ^ (-(1 / 2) : ℝ)

/-- Symmetric-normalized adjacency `D^{-1/2} @ (adj + I) @ D^{-1/2}`. -/
noncomputable def normAdj {V : Nat} (adj : Fin V → Fin V → ℝ) :
    Fin V → Fin V → ℝ :=
  fun i j =>
    degInvSqrt (degreeVec adj i) * adjWithSelfLoops adj i j *
      degInvSqrt (degreeVec adj j)

/-- `GraphConv.forward`: contraction of the node axis with the normalized
adjacency, `torch.einsum("bctv,vw->bctw", x, norm_adj)`. -/
noncomputable def graphConv {B C T V : Nat}
    (x : Fin B → Fin C → Fin T → Fin V → ℝ) (adj : Fin V → Fin V → ℝ) :
    Fin B → Fin C → Fin T → Fin V → ℝ :=
  fun b c t w => ∑ v, x b c t v * normAdj adj v w

/-! ### Inverse optimizer (the Adam loop of `run_optimize_from_csv` and
`optimize_params_api`) -/

/-- First-moment decay of `torch.optim.Adam` at its default `betas=(0.9,
0.999)`; the source passes only `lr`. -/
noncomputable def adamBeta1 : ℝ := 9 / 10

/-- Second-moment decay default of `torch.optim.Adam`. -/
noncomputable def adamBeta2 : ℝ := 999 / 1000

/-- Epsilon default `eps=1e-8` of `torch.optim.Adam`. -/
noncomputable def adamEps : ℝ := 1 / 100000000

/-- Optimizer state owned by one inverse-optimization call: the decision
array `opt_params` of shape `[B,8,T]` plus Adam's first/second moment
estimates and step counter. -/
structure AdamState (B T : Nat) where
  dec : Fin B → Fin 8 → Fin T → ℝ
  m : Fin B → Fin 8 → Fin T → ℝ
  v : Fin B → Fin 8 → Fin T → ℝ
  t : Nat

/-- Fresh optimizer state: moments and step counter zero-initialized. -/
def initAdamState {B T : Nat} (dec0 : Fin B → Fin 8 → Fin T → ℝ) :
    AdamState B T :=
  ⟨dec0, fun _ _ _ => 0, fun _ _ _ => 0, 0⟩

/-- One `optimizer.step()` of torch Adam under gradient `g`: decayed moment
averages, bias correction, and the elementwise scaled update. -/
noncomputable def adamStep {B T : Nat} (lr : ℝ)
    (g : Fin B → Fin 8 → Fin T → ℝ) (s : AdamState B T) : AdamState B T :=
  let t' := s.t + 1
  let m' := fun b c τ => adamBeta1 * s.m b c τ + (1 - adamBeta1) * g b c τ
  let v' := fun b c τ => adamBeta2 * s.v b c τ + (1 - adamBeta2) * g b c τ ^ 2
  { dec := fun b c τ =>
      s.dec b c τ -
        lr * (m' b c τ / (1 - adamBeta1 ^ t')) /
          (Real.sqrt (v' b c τ / (1 - adamBeta2 ^ t')) + adamEps),
    m := m', v := v', t := t' }

/-- `torch.clamp` semantics used by `opt_params.clamp_(zmin, zmax)`:
`min(max(x, lo), hi)`. -/
noncomputable def clampR (lo hi x : ℝ) : ℝ := min hi (max lo x)

/-- One iteration of the loop body: `loss.backward()` produces the gradient
of the composite loss at the current decision array (modelled by the oracle
`grad`), `optimizer.step()` applies Adam, and `opt_params.clamp_(zmin, zmax)`
clamps every element in place. -/
noncomputable def optStep {B T : Nat}
    (grad : (Fin B → Fin 8 → Fin T → ℝ) → Fin B → Fin 8 → Fin T → ℝ)
    (lr zmin zmax : ℝ) (s : AdamState B T) : AdamState B T :=
  let s' := adamStep lr (grad s.dec) s
  { s' with dec := fun b c τ => clampR zmin zmax (s'.dec b c τ) }

/-- Optimizer state immediately after `k` iterations of the loop, starting
from the decision array `dec0`. -/
noncomputable def optRun {B T : Nat}
    (grad : (Fin B → Fin 8 → Fin T → ℝ) → Fin B → Fin 8 → Fin T → ℝ)
    (lr zmin zmax : ℝ) (dec0 : Fin B → Fin 8 → Fin T → ℝ) : Nat → AdamState B T
  | 0 => initAdamState dec0
  | k + 1 => optStep grad lr zmin zmax (optRun grad lr zmin zmax dec0 k)

/-- Trace of `for step in range(int(steps))`: the optimizer states
immediately after each executed iteration, in order. -/
noncomputable def optTrace {B T : Nat}
    (grad : (Fin B → Fin 8 → Fin T → ℝ) → Fin B → Fin 8 → Fin T → ℝ)
    (lr zmin zmax : ℝ) (dec0 : Fin B → Fin 8 → Fin T → ℝ) :
    Nat → List (AdamState B T)
  | 0 => []
  | k + 1 =>
      optTrace grad lr zmin zmax dec0 k ++
        [optRun grad lr zmin zmax dec0 (k + 1)]

/-- `nn.MSELoss()` (mean reduction) over a `[B,C,T]` tensor pair. -/
noncomputable def mse3 {B C T : Nat} (a b : Fin B → Fin C → Fin T → ℝ) : ℝ :=
  (∑ i, ∑ c, ∑ t, (a i c t - b i c t) ^ 2) / (B * C * T : ℕ)

/-- `nn.MSELoss()` over the `[B,3,T,1]` prediction/target pair. -/
noncomputable def mse4 {B C T U : Nat}
    (a b : Fin B → Fin C → Fin T → Fin U → ℝ) : ℝ :=
  (∑ i, ∑ c, ∑ t, ∑ u, (a i c t u - b i c t u) ^ 2) / (B * C * T * U : ℕ)

/-- `tv1` of `app.py`: mean absolute difference between consecutive
timesteps of the decision array. -/
noncomputable def tvLoss {B C T : Nat} (x : Fin B → Fin C → Fin T → ℝ) : ℝ :=
  (∑ b, ∑ c, ∑ t : Fin (T - 1),
      |x b c ⟨t.val + 1, by have := t.isLt; omega⟩ -
        x b c ⟨t.val, by have := t.isLt; omega⟩|) /
    (B * C * (T - 1) : ℕ)

/-- The deviation loss of the loop body: `mse(opt_params, base)` when a
baseline parameter array was supplied, else the constant tensor `0.0`. -/
noncomputable def lossDev {B T : Nat}
    (baseline : Option (Fin B → Fin 8 → Fin T → ℝ))
    (dec : Fin B → Fin 8 → Fin T → ℝ) : ℝ :=
  match baseline with
  | some base => mse3 dec base
  | none => 0

/-- The composite loss `alpha*loss_fit + beta*loss_dev + gamma*loss_smooth`
of the loop body; the forward model plus KPI head is abstracted into the
prediction map `predict`. -/
noncomputable def compositeLoss {B T : Nat} (alpha beta gamma : ℝ)
    (predict : (Fin B → Fin 8 → Fin T → ℝ) → Fin B → Fin 3 → Fin T → Fin 1 → ℝ)
    (target : Fin B → Fin 3 → Fin T → Fin 1 → ℝ)
    (baseline : Option (Fin B → Fin 8 → Fin T → ℝ))
    (dec : Fin B → Fin 8 → Fin T → ℝ) : ℝ :=
  alpha * mse4 (predict dec) target + beta * lossDev baseline dec +
    gamma * tvLoss dec

/-- Zero gradient oracle, used to instantiate the loop theorems. -/
def gradW {B T : Nat} :
    (Fin B → Fin 8 → Fin T → ℝ) → Fin B → Fin 8 → Fin T → ℝ :=
  fun _ _ _ _ => 0

/-- Zero initial decision array, used to instantiate the loop theorems. -/
def decW : Fin 1 → Fin 8 → Fin 1 → ℝ := fun _ _ _ => 0

/-! ### Server-side shape promotion (`ensure_batched`) -/

/-- Minimal ndarray model: a shape (dimension sizes, outermost first) plus
flat data; only the shape drives `ensure_batched`. -/
structure NDArray where
  shape : List Nat
  data : List ℚ

/-- `ensure_batched` of `app.py`: a rank-2 array whose trailing dimension is
`lastDim` is promoted to a batch of one (`arr[None, ...]`); a rank-3 array
with matching trailing dimension passes through; anything else raises
`ValueError`, modelled as `Except.error`, so no array is returned. -/
def ensure_batched (a : NDArray) (lastDim : Nat) : Except String NDArray :=
  if a.shape.length = 2 ∧ a.shape.getD 1 0 = lastDim then
    .ok ⟨1 :: a.shape, a.data⟩
  else if a.shape.length = 3 ∧ a.shape.getD 2 0 = lastDim then
    .ok a
  else
    .error "Expect rank 2 or rank 3 with matching trailing dimension"

/-- Concrete rank-2 array for instantiating the shape-promotion theorem. -/
def aRank2W : NDArray := ⟨[4, 3], []⟩

/-- Concrete rank-3 array for instantiating the shape-promotion theorem. -/
def aRank3W : NDArray := ⟨[2, 4, 3], []⟩

/-! ### Hyperparameter validator (`stgcnRunner.py`) -/

/-- C4: for every input array and stats whose std vector has no zero entry,
`z_inv (z_apply x stat) stat = x` (exact in the rational model; the source's
float version agrees up to rounding). -/
theorem scaler_roundtrip {n C : Nat} (arr : Fin n → Fin C → ℚ)
    (stat : ScalerStat C) (h : ∀ c, stat.std c ≠ 0) :
    z_inv (z_apply arr stat) stat = arr := by
  funext i c
  simp only [z_inv, z_apply, if_neg (h c)]
  rw [div_mul_cancel₀ _ (h c), sub_add_cancel]

/-- C4 witness: the round-trip theorem applied at a concrete array and
concrete nonzero-std stats. -/
theorem scaler_roundtrip_witness :
    (∀ c, statW.std c ≠ 0) ∧ z_inv (z_apply arrW statW) statW = arrW :=
  ⟨by decide, scaler_roundtrip arrW statW (by decide)⟩

/-! ### Theorems for the optimization-path pooling -/

/-- C2 counterexample: the optimization path's pooled features (and hence the
KPI prediction fed into the fit loss) differ across timesteps on a concrete
hidden-feature array, so the path does not average over the time axis and does
not produce a single KPI estimate per trajectory segment. -/
theorem opt_path_time_pooling_cex :
    predOpt wCex biasCex hCex 0 0 0 0 ≠ predOpt wCex biasCex hCex 0 0 1 0 := by
  have hL : predOpt wCex biasCex hCex 0 0 0 0 = 0 := by
    simp [predOpt, kpiHeadApply, meanLastKeep, biasCex, hCex, wCex]
  have hR : predOpt wCex biasCex hCex 0 0 1 0 = 64 := by
    simp [predOpt, kpiHeadApply, meanLastKeep, biasCex, hCex, wCex,
      Finset.sum_const, Finset.card_univ]
  rw [hL, hR]
  norm_num

/-- C2 amended: on the optimization path the hidden features are averaged over
the node axis (dim -1, keepdim) before the KPI head, so the prediction at each
timestep is the head applied to the node-mean of that timestep's features, and
it depends only on that timestep's features (one KPI estimate per timestep). -/
theorem opt_path_pooling_amended {B T : Nat} (w : Fin 3 → Fin 64 → ℚ)
    (bias : Fin 3 → ℚ) (h h2 : Fin B → Fin 64 → Fin T → Fin 3 → ℚ)
    (b : Fin B) (k : Fin 3) (t : Fin T) (u : Fin 1) :
    predOpt w bias h b k t u
      = (∑ c, w k c * ((h b c t 0 + h b c t 1 + h b c t 2) / 3)) + bias k ∧
    ((∀ c v, h b c t v = h2 b c t v) →
      predOpt w bias h b k t u = predOpt w bias h2 b k t u) := by
  constructor
  · simp [predOpt, kpiHeadApply, meanLastKeep, Fin.sum_univ_three]
  · intro hagree
    simp only [predOpt, kpiHeadApply, meanLastKeep]
    congr 1
    refine Finset.sum_congr rfl (fun c _ => ?_)
    congr 2
    exact Finset.sum_congr rfl (fun v _ => hagree c v)

/-- C2 amended witness: the pooling theorem applied at the concrete weight,
bias and hidden-feature arrays. -/
theorem opt_path_pooling_amended_witness :
    (predOpt wCex biasCex hCex 0 0 0 0
      = (∑ c, wCex 0 c * ((hCex 0 c 0 0 + hCex 0 c 0 1 + hCex 0 c 0 2) / 3))
        + biasCex 0) ∧
    predOpt wCex biasCex hCex 0 0 0 0 = predOpt wCex biasCex hCex 0 0 0 0 :=
  ⟨(opt_path_pooling_amended wCex biasCex hCex hCex 0 0 0 0).1,
   (opt_path_pooling_amended wCex biasCex hCex hCex 0 0 0 0).2 (fun _ _ => rfl)⟩

/-! ### Theorems for the model architecture -/

/-- C3 counterexample: the first temporal filter of the deployed model takes 3
input channels, not 8. -/
theorem first_temporal_filter_not_eight :
    STGCN_MODEL_SHAPE.block.temp1.inChannels ≠ 8 := by
  decide

/-- C3 amended: the first temporal filter maps `IN_CHANNELS = 3` input
channels to 64 hidden channels, and the second maps 64 to 64; the 8-channel
parameter array is reshaped to 3 channels over 3 nodes by `flat8_to_stgcn_x`
before entering the first convolution rather than entering as 8 channels. -/
theorem first_temporal_filter_shape :
    STGCN_MODEL_SHAPE.block.temp1.inChannels = IN_CHANNELS ∧
    IN_CHANNELS = 3 ∧
    STGCN_MODEL_SHAPE.block.temp1.outChannels = 64 ∧
    STGCN_MODEL_SHAPE.block.temp2.inChannels = 64 ∧
    STGCN_MODEL_SHAPE.block.temp2.outChannels = 64 :=
  ⟨rfl, rfl, rfl, rfl, rfl⟩

/-! ### Theorems for graph propagation -/

/-- C8: with the single-node adjacency matrix `[[1]]`, graph propagation is
the identity transform: after self-loop addition the degree is 2 and the
normalized adjacency is the 1×1 matrix `[1]`. -/
theorem graphconv_single_node_identity {B C T : Nat}
    (x : Fin B → Fin C → Fin T → Fin 1 → ℝ) :
    graphConv x (fun _ _ => 1) = x := by
  have hdeg : degreeVec (V := 1) (fun _ _ => (1 : ℝ)) 0 = 2 := by
    simp [degreeVec, adjWithSelfLoops]
    norm_num
  have hpow : (2 : ℝ) ^ (-(1 / 2) : ℝ) * (2 : ℝ) ^ (-(1 / 2) : ℝ) = 2⁻¹ := by
    rw [← Real.rpow_add (by norm_num : (0 : ℝ) < 2)]
    rw [show (-(1 / 2) + -(1 / 2) : ℝ) = ((-1 : ℤ) : ℝ) by norm_num]
    rw [Real.rpow_intCast]
    norm_num
  have hnorm : normAdj (V := 1) (fun _ _ => (1 : ℝ)) 0 0 = 1 := by
    simp only [normAdj, hdeg, degInvSqrt, adjWithSelfLoops,
      if_neg (by norm_num : (2 : ℝ) ≠ 0), if_pos rfl]
    rw [mul_comm, ← mul_assoc, hpow]
    norm_num
  funext b c t w
  have hw : w = 0 := Subsingleton.elim w 0
  subst hw
  simp [graphConv, Fin.sum_univ_one, hnorm]

/-! ### Theorems for the inverse-optimization loop -/

/-- C1: for every gradient oracle, learning rate and initial decision array,
if `zmin ≤ zmax` then immediately after each of the `steps` iterations (Adam
update followed by clamp) every element of the decision array lies within the
inclusive interval `[zmin, zmax]`. -/
theorem clamp_invariant {B T : Nat}
    (grad : (Fin B → Fin 8 → Fin T → ℝ) → Fin B → Fin 8 → Fin T → ℝ)
    (lr zmin zmax : ℝ) (dec0 : Fin B → Fin 8 → Fin T → ℝ)
    (hz : zmin ≤ zmax) (steps k : Nat) (hk1 : 1 ≤ k) (hk2 : k ≤ steps)
    (b : Fin B) (c : Fin 8) (τ : Fin T) :
    zmin ≤ (optRun grad lr zmin zmax dec0 k).dec b c τ ∧
      (optRun grad lr zmin zmax dec0 k).dec b c τ ≤ zmax := by
  obtain ⟨j, rfl⟩ : ∃ j, k = j + 1 := ⟨k - 1, by omega⟩
  simp only [optRun, optStep, clampR]
  exact ⟨le_min hz (le_max_left _ _), min_le_left _ _⟩

/-- C1 witness: the clamp invariant applied after the single iteration of a
concrete run with `zmin = -3 ≤ 3 = zmax`. -/
theorem clamp_invariant_witness :
    ((-3 : ℝ) ≤ 3) ∧
      (-3 ≤ (optRun (gradW (B := 1) (T := 1)) 1 (-3) 3 decW 1).dec 0 0 0 ∧
        (optRun (gradW (B := 1) (T := 1)) 1 (-3) 3 decW 1).dec 0 0 0 ≤ 3) :=
  ⟨by norm_num,
   clamp_invariant gradW 1 (-3) 3 decW (by norm_num) 1 1 le_rfl le_rfl 0 0 0⟩

/-- C5: when no baseline parameter array is supplied, the deviation loss is
identically 0 at every iteration of the run, and the composite loss collapses
to `alpha*loss_fit + gamma*loss_smooth` for every value of `beta`; the run is
a total function, so the missing baseline is not an error. -/
theorem zero_baseline_dev {B T : Nat}
    (grad : (Fin B → Fin 8 → Fin T → ℝ) → Fin B → Fin 8 → Fin T → ℝ)
    (lr zmin zmax alpha beta gamma : ℝ)
    (predict : (Fin B → Fin 8 → Fin T → ℝ) → Fin B → Fin 3 → Fin T → Fin 1 → ℝ)
    (target : Fin B → Fin 3 → Fin T → Fin 1 → ℝ)
    (dec0 : Fin B → Fin 8 → Fin T → ℝ) (k : Nat) :
    lossDev Option.none ((optRun grad lr zmin zmax dec0 k).dec) = 0 ∧
      compositeLoss alpha beta gamma predict target Option.none
          ((optRun grad lr zmin zmax dec0 k).dec)
        = alpha * mse4 (predict ((optRun grad lr zmin zmax dec0 k).dec)) target
            + gamma * tvLoss ((optRun grad lr zmin zmax dec0 k).dec) := by
  refine ⟨rfl, ?_⟩
  simp [compositeLoss, lossDev]

/-- Helper: the per-iteration trace always has one entry per iteration. -/
theorem optTrace_length {B T : Nat}
    (grad : (Fin B → Fin 8 → Fin T → ℝ) → Fin B → Fin 8 → Fin T → ℝ)
    (lr zmin zmax : ℝ) (dec0 : Fin B → Fin 8 → Fin T → ℝ) :
    ∀ steps, (optTrace grad lr zmin zmax dec0 steps).length = steps := by
  intro steps
  induction steps with
  | zero => rfl
  | succ n ih => simp [optTrace, ih]

/-- C7: for every positive `steps`, the loop executes exactly `steps`
iterations and then terminates: the per-iteration trace has length exactly
`steps` and its last entry is the state after the `steps`-th application of
`optStep`; no convergence check, early exit or retry changes the count. -/
theorem fixed_step_count {B T : Nat}
    (grad : (Fin B → Fin 8 → Fin T → ℝ) → Fin B → Fin 8 → Fin T → ℝ)
    (lr zmin zmax : ℝ) (dec0 : Fin B → Fin 8 → Fin T → ℝ)
    (steps : Nat) (hpos : 0 < steps) :
    (optTrace grad lr zmin zmax dec0 steps).length = steps ∧
      (optTrace grad lr zmin zmax dec0 steps).getLast?
        = some (optRun grad lr zmin zmax dec0 steps) := by
  refine ⟨optTrace_length grad lr zmin zmax dec0 steps, ?_⟩
  obtain ⟨j, rfl⟩ : ∃ j, steps = j + 1 := ⟨steps - 1, by omega⟩
  simp [optTrace]

/-- C7 witness: the fixed-step-count theorem applied to a concrete one-step
run. -/
theorem fixed_step_count_witness :
    (optTrace (gradW (B := 1) (T := 1)) 1 (-3) 3 decW 1).length = 1 ∧
      (optTrace (gradW (B := 1) (T := 1)) 1 (-3) 3 decW 1).getLast?
        = some (optRun (gradW (B := 1) (T := 1)) 1 (-3) 3 decW 1) :=
  fixed_step_count gradW 1 (-3) 3 decW 1 (by norm_num)

/-! ### Theorems for shape promotion -/

/-- C9: `ensure_batched` errors exactly when the input is neither rank 2 with
trailing dimension `d` nor rank 3 with trailing dimension `d`; on error no
array is returned; a rank-2 input is promoted to a batch of one and a rank-3
input passes through unchanged. -/
theorem ensure_batched_spec (a : NDArray) (d : Nat) :
    ((∃ e, ensure_batched a d = .error e) ↔
      ¬ ((∃ t, a.shape = [t, d]) ∨ ∃ b t, a.shape = [b, t, d])) ∧
    (∀ t, a.shape = [t, d] →
      ensure_batched a d = .ok ⟨1 :: a.shape, a.data⟩) ∧
    (∀ b t, a.shape = [b, t, d] → ensure_batched a d = .ok a) := by
  obtain ⟨s, dat⟩ := a
  rcases s with _ | ⟨x, _ | ⟨y, _ | ⟨z, _ | ⟨w, rest⟩⟩⟩⟩
  · simp [ensure_batched]
  · simp [ensure_batched]
  · by_cases hy : y = d
    · subst hy
      simp [ensure_batched]
    · simp [ensure_batched, hy, Ne.symm hy]
  · by_cases hz : z = d
    · subst hz
      simp [ensure_batched]
    · simp [ensure_batched, hz, Ne.symm hz]
  · simp [ensure_batched]

/-- C9 witness: the shape theorem applied to a concrete rank-2 array (which
is promoted to a batch of one) and a concrete rank-3 array (which passes
through). -/
theorem ensure_batched_spec_witness :
    ensure_batched aRank2W 3 = .ok ⟨1 :: aRank2W.shape, aRank2W.data⟩ ∧
      ensure_batched aRank3W 3 = .ok aRank3W :=
  ⟨(ensure_batched_spec aRank2W 3).2.1 4 rfl,
   (ensure_batched_spec aRank3W 3).2.2 2 4 rfl⟩

/-! ### Theorems for the channel-to-node reshaping -/

/-- C10: for `[B,8,T]` inputs the reshaping succeeds and the result holds
parameter channels 0-2 at node 0, channels 3-5 at node 1, and channels 6-7
plus an identically-zero third channel at node 2; an input whose channel
dimension is not 8 is rejected. -/
theorem flat8_spec {B T : Nat} (C : Nat) (x8 : Fin B → Fin 8 → Fin T → ℚ)
    (x : Fin B → Fin C → Fin T → ℚ) :
    flat8_to_stgcn_x B T 8 x8 = some (flat8core x8) ∧
    (∀ (b : Fin B) (c : Fin 3) (t : Fin T),
      flat8core x8 b c t 0 = x8 b ⟨c.val, by have := c.isLt; omega⟩ t ∧
      flat8core x8 b c t 1 = x8 b ⟨c.val + 3, by have := c.isLt; omega⟩ t ∧
      (∀ hc : c.val < 2, flat8core x8 b c t 2 = x8 b ⟨c.val + 6, by omega⟩ t) ∧
      (c.val = 2 → flat8core x8 b c t 2 = 0)) ∧
    (C ≠ 8 → flat8_to_stgcn_x B T C x = none) := by
  refine ⟨rfl, ?_, ?_⟩
  · intro b c t
    refine ⟨rfl, rfl, ?_, ?_⟩
    · intro hc
      simp [flat8core, hc]
    · intro hc2
      simp [flat8core, hc2]
  · intro hne
    simp [flat8_to_stgcn_x, hne]

/-- C10 witness: the reshaping theorem applied to a concrete 8-channel input
(channel values record the channel index) and a concrete 5-channel input. -/
theorem flat8_spec_witness :
    flat8_to_stgcn_x 1 1 8 xGood = some (flat8core xGood) ∧
    flat8core xGood 0 0 0 1 = xGood 0 ⟨3, by omega⟩ 0 ∧
    flat8core xGood 0 ⟨2, by omega⟩ 0 2 = 0 ∧
    flat8_to_stgcn_x 1 1 5 xBad = none :=
  ⟨(flat8_spec 5 xGood xBad).1,
   ((flat8_spec 5 xGood xBad).2.1 0 0 0).2.1,
   (((flat8_spec 5 xGood xBad).2.1 0 ⟨2, by omega⟩ 0).2.2.2) rfl,
   (flat8_spec 5 xGood xBad).2.2 (by omega)⟩

/-! ### Theorems for the hyperparameter validator -/

